import Mathlib

/-!
Verification of `src/frameworks/next.js/templates.ts` (firebase-framework-tools).

The file shallowly embeds the four exported operations of the module:
`firebaseJsonStuff` (route-manifest translation), `newFunctionsYaml`
(function descriptor), `newServerJs` (server entry-point template) and
`newPackageJson` (package-manifest patching), and proves the testable
properties stated in the design specification about them.

Modelling conventions:
  * JavaScript optional fields become `Option`.
  * JavaScript `map(f).filter(it => it)` where `f` returns an object or
    `undefined` becomes `List.filterMap`.
  * A thrown exception (`readFile` rejection, `JSON.parse` failure, a
    `TypeError` from indexing a missing map) becomes `Except`/`Option`
    failure.
  * Template-literal output becomes explicit `String` concatenation; the
    text is transcribed character-for-character from the source.
-/

set_option autoImplicit false

namespace Templates

/-! ## Route manifest data model (`Manifest`, templates.ts lines 24-34) -/

/-- A `has` condition on a Next.js rewrite (`RouteHas`): only its presence
matters to the translator (`if (has) return undefined`). -/
structure RouteHas where
  kind : String
  key : Option String
  value : Option String
  deriving Repr, DecidableEq

/-- One entry of `manifest.headers`: `Header & { regex: string }`. The nested
header list is a list of key/value pairs. -/
structure NextHeader where
  source : String
  regex : String
  headers : List (String × String)
  deriving Repr, DecidableEq

/-- One entry of `manifest.redirects`: `Redirect & { regex: string }`, plus the
undeclared `internal` flag the source reads through an `any` cast. -/
structure NextRedirect where
  source : String
  destination : String
  statusCode : Option Nat
  internal : Option Bool
  regex : String
  deriving Repr, DecidableEq

/-- One entry of a rewrites list: `Rewrite & { regex: string }`. -/
structure NextRewrite where
  source : String
  destination : String
  locale : Option Bool
  has : Option (List RouteHas)
  regex : String
  deriving Repr, DecidableEq

/-- The `rewrites` field is either a flat array or a phase-grouped object
(`beforeFiles`/`afterFiles`/`fallback`), distinguished by `Array.isArray`. -/
inductive RewritesShape where
  | flat (entries : List NextRewrite)
  | phased (beforeFiles afterFiles fallback : Option (List NextRewrite))
  deriving Repr, DecidableEq

/-- The decoded `routes-manifest.json` (`Manifest` type in templates.ts). -/
structure Manifest where
  distDir : Option String := none
  basePath : Option String := none
  headers : Option (List NextHeader) := none
  redirects : Option (List NextRedirect) := none
  rewrites : Option RewritesShape := none
  deriving Repr, DecidableEq

/-! ## Hosting-config output model -/

/-- Output header rule: `{ source, headers }`. -/
structure FBHeader where
  source : String
  headers : List (String × String)
  deriving Repr, DecidableEq

/-- Output redirect rule: `{ source, destination, type }` where `type` is the
destructured `statusCode`. -/
structure FBRedirect where
  source : String
  destination : String
  type : Option Nat
  deriving Repr, DecidableEq

/-- Output rewrite rule: `{ source, destination }`. -/
structure FBRewrite where
  source : String
  destination : String
  deriving Repr, DecidableEq

/-- The value returned by `firebaseJsonStuff`: `{ headers, rewrites, redirects }`. -/
structure HostingConfig where
  headers : List FBHeader
  redirects : List FBRedirect
  rewrites : List FBRewrite
  deriving Repr, DecidableEq

/-- The pure translation step of `firebaseJsonStuff` (templates.ts lines
40-55), applied to the already-decoded manifest:
  * destructuring defaults `headers`/`redirects`/`rewrites` to `[]`,
  * headers: `.map(({source, headers}) => ({source, headers}))`,
  * redirects: `.filter(({internal}) => !internal).map(({source, destination,
    statusCode: type}) => ({source, destination, type}))` — `!internal` keeps
    exactly the entries whose flag is absent or `false`,
  * rewrites: `Array.isArray(r) ? r : r.beforeFiles || []`, then
    `.map(r => has ? undefined : {source, destination}).filter(it => it)`,
    written as `filterMap`. -/
def translateManifest (m : Manifest) : HostingConfig :=
  let nextJsHeaders := m.headers.getD []
  let nextJsRedirects := m.redirects.getD []
  let nextJsRewrites := m.rewrites.getD (.flat [])
  let headers := nextJsHeaders.map (fun h => { source := h.source, headers := h.headers : FBHeader })
  let redirects := (nextJsRedirects.filter
      (fun r => !(r.internal.getD false))).map
      (fun r => { source := r.source, destination := r.destination, type := r.statusCode : FBRedirect })
  let nextJsRewritesToUse := match nextJsRewrites with
    | .flat entries => entries
    | .phased beforeFiles _ _ => beforeFiles.getD []
  let rewrites := nextJsRewritesToUse.filterMap
      (fun r => if r.has.isSome then none
        else some { source := r.source, destination := r.destination : FBRewrite })
  { headers := headers, redirects := redirects, rewrites := rewrites }

/-- Error taxonomy of `firebaseJsonStuff`: the `readFile` rejection when the
manifest file is absent, and the `JSON.parse`/shape failure. -/
inductive TranslateError where
  | notFound
  | malformed
  deriving Repr, DecidableEq

/-- Modelled from the spec: `getProjectPathFactory` lives in `utils.ts`, which
is not part of the sources; per the specification the manifest is read from
`<resolved-path>/<distDir>/routes-manifest.json`. -/
def resolveManifestPath (resolvedPath distDir : String) : String :=
  resolvedPath ++ "/" ++ distDir ++ "/routes-manifest.json"

/-- `firebaseJsonStuff` (templates.ts lines 36-56). The file system is a map
from paths to contents (`none` = absent file, rejecting the `readFile`
promise), and `parseManifest` models `JSON.parse` plus the `Manifest` shape
(`none` = malformed content). Both failures propagate unhandled; on success
the result is the fully-formed translation of the decoded manifest. -/
def firebaseJsonStuff (fileSystem : String → Option String)
    (parseManifest : String → Option Manifest)
    (resolvedPath distDir : String) : Except TranslateError HostingConfig :=
  match fileSystem (resolveManifestPath resolvedPath distDir) with
  | none => .error .notFound
  | some contents =>
    match parseManifest contents with
    | none => .error .malformed
    | some m => .ok (translateManifest m)

/-! ## Concrete manifests used by scenario conjuncts and witnesses -/

/-- The spec's redirect scenario: one public 301 redirect and one internal 302
redirect. -/
def redirectScenarioManifest : Manifest :=
  { redirects := some
      [ { source := "/a", destination := "/b", statusCode := some 301,
          internal := some false, regex := "" },
        { source := "/x", destination := "/y", statusCode := some 302,
          internal := some true, regex := "" } ] }

/-- A manifest with a flat rewrites array: one plain rewrite and one carrying
a (here empty, still truthy) `has` condition. -/
def flatRewriteManifest : Manifest :=
  { rewrites := some (.flat
      [ { source := "/s", destination := "/d", locale := none, has := none, regex := "" },
        { source := "/u", destination := "/v", locale := none, has := some [], regex := "" } ]) }

/-- A manifest with phase-grouped rewrites where `afterFiles` and `fallback`
are populated but must not contribute. -/
def phasedRewriteManifest : Manifest :=
  { rewrites := some (.phased
      (some [ { source := "/p", destination := "/q", locale := none, has := none, regex := "" } ])
      (some [ { source := "/af", destination := "/ag", locale := none, has := none, regex := "" } ])
      (some [ { source := "/fb", destination := "/fc", locale := none, has := none, regex := "" } ])) }

/-! ## Claims about the route translation -/

/-- C1: the output redirects of `firebaseJsonStuff` drop exactly the input
redirects flagged `internal = true` and keep all other input redirects, in
input order, projected to `{source, destination, type = statusCode}`; in
particular the spec's two-redirect scenario yields exactly the single
external 301 entry. -/
theorem translateManifest_redirects (m : Manifest) :
    (translateManifest m).redirects =
      ((m.redirects.getD []).filter (fun r => !(r.internal == some true))).map
        (fun r => { source := r.source, destination := r.destination,
                    type := r.statusCode : FBRedirect }) ∧
    (translateManifest redirectScenarioManifest).redirects =
      [ { source := "/a", destination := "/b", type := some 301 } ] := by
  constructor
  · simp only [translateManifest]
    congr 1
    apply List.filter_congr
    intro r _
    cases h : r.internal with
    | none => simp
    | some b => cases b <;> simp
  · decide

/-- C2: the candidate rewrites of `firebaseJsonStuff` are the flat rewrites
array when the field is an array and only the `beforeFiles` phase otherwise
(`afterFiles`/`fallback` never contribute); every candidate with a `has`
condition is dropped and every other candidate is kept, in input order,
projected to `{source, destination}`. -/
theorem translateManifest_rewrites (m : Manifest) :
    (m.rewrites = none → (translateManifest m).rewrites = []) ∧
    (∀ entries, m.rewrites = some (.flat entries) →
      (translateManifest m).rewrites = entries.filterMap
        (fun r => if r.has.isSome then none
          else some { source := r.source, destination := r.destination : FBRewrite })) ∧
    (∀ beforeFiles afterFiles fallback,
      m.rewrites = some (.phased beforeFiles afterFiles fallback) →
      (translateManifest m).rewrites = (beforeFiles.getD []).filterMap
        (fun r => if r.has.isSome then none
          else some { source := r.source, destination := r.destination : FBRewrite })) := by
  refine ⟨?_, ?_, ?_⟩
  · intro h; simp [translateManifest, h]
  · intro entries h; simp [translateManifest, h]
  · intro beforeFiles afterFiles fallback h; simp [translateManifest, h]

/-- Witness for C2: the flat manifest keeps only the `has`-free rewrite, and
the phased manifest uses only `beforeFiles` although `afterFiles` and
`fallback` are populated. -/
theorem translateManifest_rewrites_witness :
    (translateManifest flatRewriteManifest).rewrites =
      [ { source := "/s", destination := "/d" } ] ∧
    (translateManifest phasedRewriteManifest).rewrites =
      [ { source := "/p", destination := "/q" } ] := by
  constructor
  · rw [(translateManifest_rewrites flatRewriteManifest).2.1 _ rfl]; decide
  · rw [(translateManifest_rewrites phasedRewriteManifest).2.2 _ _ _ rfl]; decide

/-- C7: the output headers of `firebaseJsonStuff` are the input headers, in
order and number, each projected to `{source, headers}` (dropping `regex`,
carrying `source` through unchanged). -/
theorem translateManifest_headers (m : Manifest) :
    (translateManifest m).headers =
      (m.headers.getD []).map
        (fun h => { source := h.source, headers := h.headers : FBHeader }) ∧
    (translateManifest m).headers.length = (m.headers.getD []).length := by
  refine ⟨rfl, ?_⟩
  simp [translateManifest]

/-- C8: `firebaseJsonStuff` fails with the not-found error when the manifest
file is absent at the resolved path, fails with the malformed error when the
content does not decode to a `Manifest`, and any success is the fully-formed
translation of the decoded manifest (no partial result). -/
theorem firebaseJsonStuff_error_handling (fileSystem : String → Option String)
    (parseManifest : String → Option Manifest) (resolvedPath distDir : String) :
    (fileSystem (resolveManifestPath resolvedPath distDir) = none →
      firebaseJsonStuff fileSystem parseManifest resolvedPath distDir = .error .notFound) ∧
    (∀ contents, fileSystem (resolveManifestPath resolvedPath distDir) = some contents →
      parseManifest contents = none →
      firebaseJsonStuff fileSystem parseManifest resolvedPath distDir = .error .malformed) ∧
    (∀ cfg, firebaseJsonStuff fileSystem parseManifest resolvedPath distDir = .ok cfg →
      ∃ contents m, fileSystem (resolveManifestPath resolvedPath distDir) = some contents ∧
        parseManifest contents = some m ∧ cfg = translateManifest m) := by
  refine ⟨?_, ?_, ?_⟩
  · intro h; simp [firebaseJsonStuff, h]
  · intro contents h hp; simp [firebaseJsonStuff, h, hp]
  · intro cfg h
    unfold firebaseJsonStuff at h
    split at h
    · exact absurd h (by simp)
    next contents hf =>
      split at h
      · exact absurd h (by simp)
      next m hp =>
        cases h
        exact ⟨contents, m, hf, hp, rfl⟩

/-- Witness for C8: an empty file system produces the not-found error, and a
file system whose single file never parses produces the malformed error. -/
theorem firebaseJsonStuff_error_handling_witness :
    firebaseJsonStuff (fun _ => none) (fun _ => none) "/proj" ".next" = .error .notFound ∧
    firebaseJsonStuff (fun _ => some "nonsense") (fun _ => none) "/proj" ".next" =
      .error .malformed := by
  constructor
  · exact (firebaseJsonStuff_error_handling (fun _ => none) (fun _ => none) "/proj" ".next").1 rfl
  · exact (firebaseJsonStuff_error_handling (fun _ => some "nonsense") (fun _ => none)
      "/proj" ".next").2.1 "nonsense" rfl rfl

/-! ## JSON values and `JSON.stringify(_, null, 2)` -/

/-- Hex digit as produced by JavaScript string escaping (lowercase). -/
def hexDigit (n : Nat) : Char :=
  if n < 10 then Char.ofNat (48 + n) else Char.ofNat (87 + n)

/-- Escape of one character inside a JSON string literal, as `JSON.stringify`
produces it. -/
def escapeChar (c : Char) : List Char :=
  if c = '"' then ['\\', '"']
  else if c = '\\' then ['\\', '\\']
  else if c = '\x08' then ['\\', 'b']
  else if c = '\x09' then ['\\', 't']
  else if c = '\x0a' then ['\\', 'n']
  else if c = '\x0c' then ['\\', 'f']
  else if c = '\x0d' then ['\\', 'r']
  else if c.toNat < 32 then ['\\', 'u', '0', '0', hexDigit (c.toNat / 16), hexDigit (c.toNat % 16)]
  else [c]

/-- JSON escaping of a string's characters. -/
def jsonEscape (s : String) : String := String.mk (s.data.flatMap escapeChar)

/-- `JSON.stringify` of a string: quoted, escaped. -/
def jsonString (s : String) : String := "\"" ++ jsonEscape s ++ "\""

/-- JSON values as this module produces them: strings, arrays, objects with
ordered fields (numbers, booleans and null never occur in the emitted trees). -/
inductive Json where
  | str (s : String)
  | arr (elements : List Json)
  | obj (fields : List (String × Json))

/-- `2 * depth` spaces: the indentation of `JSON.stringify(_, null, 2)`. -/
def indent (depth : Nat) : String := String.mk (List.replicate (2 * depth) ' ')

mutual

/-- `JSON.stringify(v, null, 2)` at a nesting depth: empty arrays/objects
render inline, non-empty ones one element per line. -/
def renderJson : Nat → Json → String
  | _, .str s => jsonString s
  | _, .arr [] => "[]"
  | depth, .arr (x :: xs) =>
    "[\n" ++ renderElems (depth + 1) (x :: xs) ++ "\n" ++ indent depth ++ "]"
  | _, .obj [] => "\x7b\x7d"
  | depth, .obj (f :: fs) =>
    "\x7b\n" ++ renderFields (depth + 1) (f :: fs) ++ "\n" ++ indent depth ++ "\x7d"

/-- Array elements, comma-and-newline separated, each indented. -/
def renderElems : Nat → List Json → String
  | _, [] => ""
  | depth, [x] => indent depth ++ renderJson depth x
  | depth, x :: y :: xs =>
    indent depth ++ renderJson depth x ++ ",\n" ++ renderElems depth (y :: xs)

/-- Object fields, comma-and-newline separated, `"key": value` each. -/
def renderFields : Nat → List (String × Json) → String
  | _, [] => ""
  | depth, [(k, v)] => indent depth ++ jsonString k ++ ": " ++ renderJson depth v
  | depth, (k, v) :: f :: fs =>
    indent depth ++ jsonString k ++ ": " ++ renderJson depth v ++ ",\n" ++
      renderFields depth (f :: fs)

end

/-- Field lookup in a JSON object. -/
def jsonLookup (key : String) : Json → Option Json
  | .obj fields => (fields.find? (fun f => f.1 == key)).map (fun f => f.2)
  | _ => none

/-! ## `newFunctionsYaml` (templates.ts lines 58-73) -/

/-- The destructured `config.function!`: `{ gen, name, region }`. -/
structure FunctionConfig where
  gen : Nat
  name : String
  region : String
  deriving Repr, DecidableEq

/-- The object serialized by `newFunctionsYaml`: a single-endpoint descriptor
keyed by the function name. -/
def functionsYamlDescriptor (f : FunctionConfig) : Json :=
  .obj
    [ ("endpoints", .obj
        [ (f.name, .obj
            [ ("platform", .str ("gcfv" ++ toString f.gen)),
              ("region", .arr [.str f.region]),
              ("labels", .obj []),
              ("httpsTrigger", .obj []),
              ("entryPoint", .str f.name) ]) ]),
      ("specVersion", .str "v1alpha1"),
      ("requiredAPIs", .arr []) ]

/-- `newFunctionsYaml`: `JSON.stringify(descriptor, null, 2)`. -/
def newFunctionsYaml (f : FunctionConfig) : String :=
  renderJson 0 (functionsYamlDescriptor f)

set_option maxRecDepth 20000 in
/-- C6: `newFunctionsYaml` serializes (2-space indent) a descriptor whose
`endpoints` object has the function name as its single key, mapped to
platform `"gcfv" + gen`, the one-element region list, empty labels, an
`httpsTrigger` marker and `entryPoint = name`, beside `specVersion
"v1alpha1"` and empty `requiredAPIs`; the `{gen 2, ssr, us-central1}`
scenario yields platform `"gcfv2"`, region `["us-central1"]`, and exactly
the expected serialized text. -/
theorem newFunctionsYaml_descriptor_shape (f : FunctionConfig) :
    jsonLookup "endpoints" (functionsYamlDescriptor f) = some (.obj
      [ (f.name, .obj
          [ ("platform", .str ("gcfv" ++ toString f.gen)),
            ("region", .arr [.str f.region]),
            ("labels", .obj []),
            ("httpsTrigger", .obj []),
            ("entryPoint", .str f.name) ]) ]) ∧
    jsonLookup "specVersion" (functionsYamlDescriptor f) = some (.str "v1alpha1") ∧
    jsonLookup "requiredAPIs" (functionsYamlDescriptor f) = some (.arr []) ∧
    newFunctionsYaml f = renderJson 0 (functionsYamlDescriptor f) ∧
    ((jsonLookup "endpoints" (functionsYamlDescriptor ⟨2, "ssr", "us-central1"⟩)).bind
        (jsonLookup "ssr")).bind (jsonLookup "platform") = some (.str "gcfv2") ∧
    ((jsonLookup "endpoints" (functionsYamlDescriptor ⟨2, "ssr", "us-central1"⟩)).bind
        (jsonLookup "ssr")).bind (jsonLookup "region") = some (.arr [.str "us-central1"]) ∧
    newFunctionsYaml ⟨2, "ssr", "us-central1"⟩ =
      "\x7b\n  \"endpoints\": \x7b\n    \"ssr\": \x7b\n      \"platform\": \"gcfv2\",\n      \"region\": [\n        \"us-central1\"\n      ],\n      \"labels\": \x7b\x7d,\n      \"httpsTrigger\": \x7b\x7d,\n      \"entryPoint\": \"ssr\"\n    \x7d\n  \x7d,\n  \"specVersion\": \"v1alpha1\",\n  \"requiredAPIs\": []\n\x7d" := by
  refine ⟨rfl, rfl, rfl, rfl, rfl, rfl, rfl⟩

/-! ## `newPackageJson` (templates.ts lines 178-196) -/

/-- A package manifest: the fields the patcher touches (`main`,
`dependencies`, `engines`) plus the untouched remainder (`extra`, opaque
string-valued fields carried through by the object spread). Dependency and
engine maps are ordered key/value lists, as JavaScript objects are. -/
structure PackageJson where
  main : Option String := none
  dependencies : Option (List (String × String)) := none
  engines : Option (List (String × String)) := none
  extra : List (String × String) := []
  deriving Repr, DecidableEq

/-- First-match key lookup in an ordered key/value list (JS property read). -/
def lookupKV : String → List (String × String) → Option String
  | _, [] => none
  | key, (k, v) :: rest => if k = key then some v else lookupKV key rest

/-- JS property write: overwrite in place if the key exists, else append. -/
def setKV : String → String → List (String × String) → List (String × String)
  | key, value, [] => [(key, value)]
  | key, value, (k, v) :: rest =>
    if k = key then (k, value) :: rest else (k, v) :: setKV key value rest

/-- JS `obj[key] ||= value`: assign when the current value is absent or falsy
(the falsy strings being exactly `""`). -/
def orSetKV (key value : String) (l : List (String × String)) : List (String × String) :=
  match lookupKV key l with
  | some w => if w = "" then setKV key value l else l
  | none => setKV key value l

/-- `FIREBASE_ADMIN_VERSION`. -/
def FIREBASE_ADMIN_VERSION : String := "^10.0.0"

/-- `FIREBASE_FUNCTIONS_VERSION`. -/
def FIREBASE_FUNCTIONS_VERSION : String := "^3.16.0"

/-- `COOKIE_VERSION`. -/
def COOKIE_VERSION : String := "^0.4.2"

/-- `LRU_CACHE_VERSION`. -/
def LRU_CACHE_VERSION : String := "^7.3.1"

/-- The fixed dependency names and their default constraints, in the order
the source applies them. -/
def depDefaults : List (String × String) :=
  [ ("firebase-admin", FIREBASE_ADMIN_VERSION),
    ("firebase-functions", FIREBASE_FUNCTIONS_VERSION),
    ("cookie", COOKIE_VERSION),
    ("lru-cache", LRU_CACHE_VERSION) ]

/-- The four `dependencies[name] ||= VERSION` lines, in source order. -/
def patchDeps (deps : List (String × String)) : List (String × String) :=
  orSetKV "lru-cache" LRU_CACHE_VERSION
    (orSetKV "cookie" COOKIE_VERSION
      (orSetKV "firebase-functions" FIREBASE_FUNCTIONS_VERSION
        (orSetKV "firebase-admin" FIREBASE_ADMIN_VERSION deps)))

/-- The object-level body of `newPackageJson`: spread copy, `main` forced to
`server.js`, the four dependency defaults, `engines ||= {}` then
`engines.node ||= NODE_VERSION`. `NODE_VERSION` is captured from
`process.versions.node` at module load and is passed here explicitly.
Indexing `dependencies` when the field is absent throws a `TypeError`
(`none`); `engines` by contrast is created when absent. -/
def newPackageJSONObj (nodeVersion : String) (p : PackageJson) : Option PackageJson :=
  match p.dependencies with
  | none => none
  | some deps => some
    { main := some "server.js",
      dependencies := some (patchDeps deps),
      engines := some (orSetKV "node" nodeVersion (p.engines.getD [])),
      extra := p.extra }

/-- The JSON object a `PackageJson` serializes to (dependency and engine
values rendered as JSON strings). -/
def PackageJson.toJson (p : PackageJson) : Json :=
  .obj
    (p.extra.map (fun kv => (kv.1, Json.str kv.2)) ++
     (match p.main with
       | some m => [("main", Json.str m)]
       | none => []) ++
     (match p.dependencies with
       | some d => [("dependencies", Json.obj (d.map (fun kv => (kv.1, Json.str kv.2))))]
       | none => []) ++
     (match p.engines with
       | some e => [("engines", Json.obj (e.map (fun kv => (kv.1, Json.str kv.2))))]
       | none => []))

/-- `newPackageJson`: patch the manifest object, then
`JSON.stringify(_, null, 2)`. -/
def newPackageJson (nodeVersion : String) (p : PackageJson) : Option String :=
  (newPackageJSONObj nodeVersion p).map (fun q => renderJson 0 q.toJson)

/-! ## Key/value list lemmas -/

theorem lookupKV_setKV_self (key value : String) (l : List (String × String)) :
    lookupKV key (setKV key value l) = some value := by
  induction l with
  | nil => simp [setKV, lookupKV]
  | cons kv rest ih =>
    obtain ⟨k, v⟩ := kv
    by_cases h : k = key <;> simp [setKV, lookupKV, h, ih]

theorem lookupKV_setKV_ne (key key' value : String) (l : List (String × String))
    (h : key' ≠ key) : lookupKV key' (setKV key value l) = lookupKV key' l := by
  induction l with
  | nil => simp [setKV, lookupKV, Ne.symm h]
  | cons kv rest ih =>
    obtain ⟨k, v⟩ := kv
    by_cases hk : k = key
    · subst hk
      simp [setKV, lookupKV, Ne.symm h]
    · simp [setKV, lookupKV, hk, ih]

theorem lookupKV_orSetKV_ne (key key' value : String) (l : List (String × String))
    (h : key' ≠ key) : lookupKV key' (orSetKV key value l) = lookupKV key' l := by
  unfold orSetKV
  cases hl : lookupKV key l with
  | none => exact lookupKV_setKV_ne key key' value l h
  | some w =>
    by_cases hw : w = "" <;> simp [hw, lookupKV_setKV_ne key key' value l h]

theorem lookupKV_orSetKV_self (key value : String) (l : List (String × String)) :
    lookupKV key (orSetKV key value l) =
      some (match lookupKV key l with
        | some w => if w = "" then value else w
        | none => value) := by
  unfold orSetKV
  cases hl : lookupKV key l with
  | none => simp [lookupKV_setKV_self]
  | some w =>
    by_cases hw : w = "" <;> simp [hw, hl, lookupKV_setKV_self]

theorem orSetKV_of_truthy (key value w : String) (l : List (String × String))
    (hl : lookupKV key l = some w) (hw : w ≠ "") : orSetKV key value l = l := by
  unfold orSetKV
  rw [hl]
  simp [hw]

theorem lookupKV_orSetKV_truthy (key value : String) (l : List (String × String))
    (hv : value ≠ "") :
    ∃ w, lookupKV key (orSetKV key value l) = some w ∧ w ≠ "" := by
  rw [lookupKV_orSetKV_self]
  cases hl : lookupKV key l with
  | none => exact ⟨value, rfl, hv⟩
  | some w =>
    by_cases hw : w = ""
    · exact ⟨value, by simp [hw], hv⟩
    · exact ⟨w, by simp [hw], hw⟩

theorem orSetKV_idem (key value : String) (l : List (String × String))
    (hv : value ≠ "") :
    orSetKV key value (orSetKV key value l) = orSetKV key value l := by
  obtain ⟨w, hw, hw'⟩ := lookupKV_orSetKV_truthy key value l hv
  exact orSetKV_of_truthy key value w _ hw hw'

theorem patchDeps_idem (deps : List (String × String)) :
    patchDeps (patchDeps deps) = patchDeps deps := by
  obtain ⟨w1, hw1, hnz1⟩ :=
    lookupKV_orSetKV_truthy "firebase-admin" FIREBASE_ADMIN_VERSION deps (by decide)
  obtain ⟨w2, hw2, hnz2⟩ :=
    lookupKV_orSetKV_truthy "firebase-functions" FIREBASE_FUNCTIONS_VERSION
      (orSetKV "firebase-admin" FIREBASE_ADMIN_VERSION deps) (by decide)
  obtain ⟨w3, hw3, hnz3⟩ :=
    lookupKV_orSetKV_truthy "cookie" COOKIE_VERSION
      (orSetKV "firebase-functions" FIREBASE_FUNCTIONS_VERSION
        (orSetKV "firebase-admin" FIREBASE_ADMIN_VERSION deps)) (by decide)
  obtain ⟨w4, hw4, hnz4⟩ :=
    lookupKV_orSetKV_truthy "lru-cache" LRU_CACHE_VERSION
      (orSetKV "cookie" COOKIE_VERSION
        (orSetKV "firebase-functions" FIREBASE_FUNCTIONS_VERSION
          (orSetKV "firebase-admin" FIREBASE_ADMIN_VERSION deps))) (by decide)
  have l1 : lookupKV "firebase-admin" (patchDeps deps) = some w1 := by
    unfold patchDeps
    rw [lookupKV_orSetKV_ne _ _ _ _ (by decide), lookupKV_orSetKV_ne _ _ _ _ (by decide),
      lookupKV_orSetKV_ne _ _ _ _ (by decide)]
    exact hw1
  have l2 : lookupKV "firebase-functions" (patchDeps deps) = some w2 := by
    unfold patchDeps
    rw [lookupKV_orSetKV_ne _ _ _ _ (by decide), lookupKV_orSetKV_ne _ _ _ _ (by decide)]
    exact hw2
  have l3 : lookupKV "cookie" (patchDeps deps) = some w3 := by
    unfold patchDeps
    rw [lookupKV_orSetKV_ne _ _ _ _ (by decide)]
    exact hw3
  have l4 : lookupKV "lru-cache" (patchDeps deps) = some w4 := hw4
  have expand : patchDeps (patchDeps deps) =
      orSetKV "lru-cache" LRU_CACHE_VERSION
        (orSetKV "cookie" COOKIE_VERSION
          (orSetKV "firebase-functions" FIREBASE_FUNCTIONS_VERSION
            (orSetKV "firebase-admin" FIREBASE_ADMIN_VERSION (patchDeps deps)))) := rfl
  rw [expand, orSetKV_of_truthy _ _ _ _ l1 hnz1, orSetKV_of_truthy _ _ _ _ l2 hnz2,
    orSetKV_of_truthy _ _ _ _ l3 hnz3, orSetKV_of_truthy _ _ _ _ l4 hnz4]

theorem lookupKV_patchDeps_eq (deps : List (String × String)) (key default : String)
    (hmem : (key, default) ∈ depDefaults) :
    lookupKV key (patchDeps deps) =
      some (match lookupKV key deps with
        | some w => if w = "" then default else w
        | none => default) := by
  fin_cases hmem
  · unfold patchDeps
    rw [lookupKV_orSetKV_ne _ _ _ _ (by decide), lookupKV_orSetKV_ne _ _ _ _ (by decide),
      lookupKV_orSetKV_ne _ _ _ _ (by decide), lookupKV_orSetKV_self]
  · unfold patchDeps
    rw [lookupKV_orSetKV_ne _ _ _ _ (by decide), lookupKV_orSetKV_ne _ _ _ _ (by decide),
      lookupKV_orSetKV_self, lookupKV_orSetKV_ne _ _ _ _ (by decide)]
  · unfold patchDeps
    rw [lookupKV_orSetKV_ne _ _ _ _ (by decide), lookupKV_orSetKV_self,
      lookupKV_orSetKV_ne _ _ _ _ (by decide), lookupKV_orSetKV_ne _ _ _ _ (by decide)]
  · unfold patchDeps
    rw [lookupKV_orSetKV_self, lookupKV_orSetKV_ne _ _ _ _ (by decide),
      lookupKV_orSetKV_ne _ _ _ _ (by decide), lookupKV_orSetKV_ne _ _ _ _ (by decide)]

/-- Shape of any successful `newPackageJSONObj` result. -/
theorem newPackageJSONObj_eq (nodeVersion : String) (p q : PackageJson)
    (h : newPackageJSONObj nodeVersion p = some q) :
    ∃ deps, p.dependencies = some deps ∧
      q = { main := some "server.js",
            dependencies := some (patchDeps deps),
            engines := some (orSetKV "node" nodeVersion (p.engines.getD [])),
            extra := p.extra } := by
  cases hd : p.dependencies with
  | none => simp [newPackageJSONObj, hd] at h
  | some deps =>
    refine ⟨deps, rfl, ?_⟩
    simp only [newPackageJSONObj, hd] at h
    exact (Option.some.inj h).symm

/-! ## Claims about the package manifest patcher -/

/-- C3 as frozen is false: JavaScript `||=` also overwrites a present but
falsy value. The input pinning `dependencies["firebase-admin"] = ""` (a legal
npm constraint meaning "any version") is overwritten with the default. -/
def emptyPinManifest : PackageJson := { dependencies := some [("firebase-admin", "")] }

/-- Counterexample to C3 as stated: `emptyPinManifest` has the key
`firebase-admin` present (value `""`), yet `newPackageJson` replaces that
value with the fixed default `"^10.0.0"` instead of leaving it untouched. -/
theorem newPackageJson_overwrites_empty_value :
    lookupKV "firebase-admin" (emptyPinManifest.dependencies.getD []) = some "" ∧
    (newPackageJSONObj "18" emptyPinManifest).map
      (fun q => lookupKV "firebase-admin" (q.dependencies.getD [])) =
      some (some "^10.0.0") := by decide

/-- C3 (amended): for each name in the fixed dependency set, `newPackageJson`
keeps a present non-empty value untouched and installs the fixed default
exactly when the key is absent or its value is the empty (falsy) string;
likewise `engines.node` keeps a present non-empty value and is set to the
running toolchain's version when absent or empty. -/
theorem newPackageJson_dependency_defaults (nodeVersion : String) (p q : PackageJson)
    (h : newPackageJSONObj nodeVersion p = some q) :
    (∀ key default, (key, default) ∈ depDefaults →
      (∀ w, lookupKV key (p.dependencies.getD []) = some w → w ≠ "" →
        lookupKV key (q.dependencies.getD []) = some w) ∧
      ((lookupKV key (p.dependencies.getD []) = none ∨
          lookupKV key (p.dependencies.getD []) = some "") →
        lookupKV key (q.dependencies.getD []) = some default)) ∧
    (∀ w, lookupKV "node" (p.engines.getD []) = some w → w ≠ "" →
      lookupKV "node" (q.engines.getD []) = some w) ∧
    ((lookupKV "node" (p.engines.getD []) = none ∨
        lookupKV "node" (p.engines.getD []) = some "") →
      lookupKV "node" (q.engines.getD []) = some nodeVersion) := by
  obtain ⟨deps, hdeps, hq⟩ := newPackageJSONObj_eq nodeVersion p q h
  subst hq
  refine ⟨?_, ?_, ?_⟩
  · intro key default hmem
    simp only [hdeps, Option.getD_some]
    constructor
    · intro w hw hnz
      rw [lookupKV_patchDeps_eq deps key default hmem, hw]
      simp [hnz]
    · intro hcase
      rw [lookupKV_patchDeps_eq deps key default hmem]
      rcases hcase with hc | hc <;> simp [hc]
  · intro w hw hnz
    simp only [Option.getD_some]
    rw [lookupKV_orSetKV_self, hw]
    simp [hnz]
  · intro hcase
    simp only [Option.getD_some]
    rw [lookupKV_orSetKV_self]
    rcases hcase with hc | hc <;> simp [hc]

/-- A manifest pinning `firebase-admin` and leaving `cookie` empty. -/
def pinnedManifest : PackageJson :=
  { dependencies := some [("firebase-admin", "9.9.9"), ("cookie", "")] }

/-- The patched form of `pinnedManifest` under node major version `18`. -/
def pinnedPatched : PackageJson :=
  { main := some "server.js",
    dependencies := some
      [ ("firebase-admin", "9.9.9"), ("cookie", "^0.4.2"),
        ("firebase-functions", "^3.16.0"), ("lru-cache", "^7.3.1") ],
    engines := some [("node", "18")],
    extra := [] }

/-- Witness for C3 (amended): the pinned `firebase-admin` survives, the
empty-valued `cookie` and the absent `engines.node` receive defaults. -/
theorem newPackageJson_dependency_defaults_witness :
    lookupKV "firebase-admin" (pinnedPatched.dependencies.getD []) = some "9.9.9" ∧
    lookupKV "cookie" (pinnedPatched.dependencies.getD []) = some COOKIE_VERSION ∧
    lookupKV "node" (pinnedPatched.engines.getD []) = some "18" := by
  have h := newPackageJson_dependency_defaults "18" pinnedManifest pinnedPatched (by decide)
  refine ⟨?_, ?_, ?_⟩
  · exact (h.1 "firebase-admin" FIREBASE_ADMIN_VERSION (by decide)).1 "9.9.9" (by decide) (by decide)
  · exact (h.1 "cookie" COOKIE_VERSION (by decide)).2 (Or.inr (by decide))
  · exact h.2.2 (Or.inl (by decide))

/-- C4: `newPackageJson` is idempotent. If the first application succeeds and
produces (before serialization) the manifest `q`, then re-applying the
operation to `q` — which is exactly what one gets back from parsing the
first JSON output, serialization being injectively parsed — changes nothing
and yields the identical JSON text. `nodeVersion ≠ ""` holds for the source's
`NODE_VERSION` since `parseInt(..).toString()` is never empty. -/
theorem newPackageJson_idempotent (nodeVersion : String) (p q : PackageJson)
    (hnode : nodeVersion ≠ "") (h : newPackageJSONObj nodeVersion p = some q) :
    newPackageJSONObj nodeVersion q = some q ∧
    newPackageJson nodeVersion q = newPackageJson nodeVersion p := by
  obtain ⟨deps, hdeps, hq⟩ := newPackageJSONObj_eq nodeVersion p q h
  have hobj : newPackageJSONObj nodeVersion q = some q := by
    subst hq
    simp only [newPackageJSONObj, Option.getD_some]
    rw [patchDeps_idem, orSetKV_idem "node" nodeVersion (p.engines.getD []) hnode]
  exact ⟨hobj, by unfold newPackageJson; rw [hobj, h]⟩

/-- Witness input for C4. -/
def simpleManifest : PackageJson := { dependencies := some [("firebase-admin", "9.9.9")] }

/-- The patched form of `simpleManifest` under node major version `18`. -/
def simplePatched : PackageJson :=
  { main := some "server.js",
    dependencies := some
      [ ("firebase-admin", "9.9.9"), ("firebase-functions", "^3.16.0"),
        ("cookie", "^0.4.2"), ("lru-cache", "^7.3.1") ],
    engines := some [("node", "18")],
    extra := [] }

/-- Witness for C4: re-patching the patched manifest is the identity and the
serialized output of the two applications coincides. -/
theorem newPackageJson_idempotent_witness :
    newPackageJSONObj "18" simplePatched = some simplePatched ∧
    newPackageJson "18" simplePatched = newPackageJson "18" simpleManifest :=
  newPackageJson_idempotent "18" simpleManifest simplePatched (by decide) (by decide)

/-- C10: when the input manifest has no `dependencies` map, the dependency
defaulting step throws (`dependencies['firebase-admin']` on `undefined`), so
`newPackageJson` produces nothing; when `dependencies` is present the
operation succeeds, and a missing `engines` map — unlike `dependencies` — is
created. -/
theorem newPackageJson_missing_dependencies (nodeVersion : String) (p : PackageJson) :
    (p.dependencies = none → newPackageJson nodeVersion p = none) ∧
    (∀ deps, p.dependencies = some deps →
      ∃ q, newPackageJSONObj nodeVersion p = some q ∧
        q.engines = some (orSetKV "node" nodeVersion (p.engines.getD [])) ∧
        (newPackageJson nodeVersion p).isSome) := by
  constructor
  · intro h
    simp [newPackageJson, newPackageJSONObj, h]
  · intro deps h
    refine ⟨{ main := some "server.js",
              dependencies := some (patchDeps deps),
              engines := some (orSetKV "node" nodeVersion (p.engines.getD [])),
              extra := p.extra }, ?_, rfl, ?_⟩
    · simp [newPackageJSONObj, h]
    · simp [newPackageJson, newPackageJSONObj, h]

/-- Witness for C10: a manifest without `dependencies` fails; one with an
empty `dependencies` map succeeds. -/
theorem newPackageJson_missing_dependencies_witness :
    newPackageJson "18" { dependencies := none } = none ∧
    (newPackageJson "18" { dependencies := some [] }).isSome := by
  constructor
  · exact (newPackageJson_missing_dependencies "18" { dependencies := none }).1 rfl
  · obtain ⟨q, hq, he, hs⟩ :=
      (newPackageJson_missing_dependencies "18" { dependencies := some [] }).2 [] rfl
    exact hs

/-! ## `newServerJs` (templates.ts lines 76-176)

The emitted entry-point text, transcribed character for character from the
template literal. `FirebaseOptions` is a flat string-valued configuration
object (its concrete fields are opaque to the template, which only splices
`JSON.stringify(options)`); `null` becomes `none`. -/

/-- The client options blob: an ordered string-valued object. -/
abbrev FirebaseOptions := List (String × String)

/-- Compact `JSON.stringify` of a flat string-valued object. -/
def jsonStringifyOptions (options : FirebaseOptions) : String :=
  "\x7b" ++
    String.intercalate ","
      (options.map (fun kv => jsonString kv.1 ++ ":" ++ jsonString kv.2)) ++
    "\x7d"

/-- Generation-1 import line. -/
def requireFunctionsV1 : String :=
  "const functions = require(\x27firebase-functions\x27);"

/-- Generation-2 import line. -/
def requireFunctionsV2 : String :=
  "const \x7b onRequest \x7d = require(\x27firebase-functions/v2/https\x27);"

/-- `conditionalImports`: selected by `gen === 1`. -/
def conditionalImports (gen : Nat) : String :=
  if gen = 1 then requireFunctionsV1 else requireFunctionsV2

/-- The `onRequest` trigger-registration prefix: `functions.https.onRequest(`
for generation 1, `onRequest({ region: '<region>' }, ` otherwise. -/
def onRequestSnippet (gen : Nat) (region : String) : String :=
  if gen = 1 then "functions.https.onRequest("
  else "onRequest(\x7b region: \x27" ++ region ++ "\x27 \x7d, "

/-- The fixed require lines following the conditional import. -/
def coreImports : String :=
  "\nconst \x7b parse \x7d = require(\x27url\x27);\nconst next = require(\x27next\x27);\nconst \x7b join \x7d = require(\x27path\x27);"

/-- The per-user LRU-cached client SDK setup (capacity 100, 5-minute TTL,
stale-while-revalidate, dispose hook releasing the app). -/
def lruSetupText : String :=
  "// TODO performance tune this\n" ++
  "const firebaseAppsLRU = new LRU(\x7b\n" ++
  "    max: 100,\n" ++
  "    ttl: 1_000 * 60 * 5,\n" ++
  "    allowStale: true,\n" ++
  "    updateAgeOnGet: true,\n" ++
  "    dispose: value => \x7b\n" ++
  "        deleteApp(value);\n" ++
  "    \x7d\n" ++
  "\x7d);"

/-- The auth/admin imports and admin app setup preceding the LRU block,
including the interpolated `firebaseConfig`. -/
def authImportsPre (options : FirebaseOptions) : String :=
  "\nconst \x7b initializeApp: initializeAdminApp \x7d = require(\x27firebase-admin/app\x27);\n" ++
  "const \x7b getAuth: getAdminAuth \x7d = require(\x27firebase-admin/auth\x27);\n" ++
  "const \x7b initializeApp, deleteApp \x7d = require(\x27firebase/app\x27);\n" ++
  "const \x7b getAuth, signInWithCustomToken \x7d = require(\x27firebase/auth\x27);\n" ++
  "const cookie = require(\x27cookie\x27);\n" ++
  "const LRU = require(\x27lru-cache\x27);\n" ++
  "\n" ++
  "const adminApp = initializeAdminApp();\n" ++
  "const adminAuth = getAdminAuth(adminApp);\n" ++
  "const firebaseConfig = " ++ jsonStringifyOptions options ++ ";\n" ++
  "\n"

/-- The whole first optional block (`${options ? ... : ''}` after the require
lines). -/
def authImportsBlock (options : FirebaseOptions) : String :=
  authImportsPre options ++ lruSetupText ++ "\n"

/-- The fixed text between the first optional block and the interpolated
export name. -/
def nextAppSetup : String :=
  "\n\nconst nextApp = next(\x7b dev: false, dir: __dirname \x7d);\nconst nextAppPrepare = nextApp.prepare();\n\nexports["

/-- The `/__next/cookie` endpoint branch: exchanges a bearer ID token for a
server-issued session cookie (5-day expiry, secure + http-only) or clears
the session cookie on logout. -/
def cookieEndpointText : String :=
  "    if (req.url === \x27/__next/cookie\x27) \x7b\n" ++
  "        if (req.body.user) \x7b\n" ++
  "            const idToken = req.body.user.idToken;\n" ++
  "            const decodedIdTokenFromBody = await adminAuth.verifyIdToken(idToken, true);\n" ++
  "            // TODO freshen the session cookie if needed\n" ++
  "            //      check for idToken having been freshly minted\n" ++
  "            const decodedIdToken = await decodeIdToken();\n" ++
  "            if (decodedIdTokenFromBody.uid === decodedIdToken?.uid) \x7b\n" ++
  "                res.status(304).end();\n" ++
  "            \x7d else \x7b\n" ++
  "                // TODO allow this to be configurable\n" ++
  "                const expiresIn = 60 * 60 * 24 * 5 * 1000;\n" ++
  "                // TODO log the failure\n" ++
  "                const cookie = await adminAuth.createSessionCookie(idToken, \x7b expiresIn \x7d).catch(() => null);\n" ++
  "                if (cookie) \x7b\n" ++
  "                    const options = \x7b maxAge: expiresIn, httpOnly: true, secure: true \x7d;\n" ++
  "                    res.cookie(\x27__session\x27, cookie, options).status(201).end();\n" ++
  "                \x7d else \x7b\n" ++
  "                    res.status(401).end();\n" ++
  "                \x7d\n" ++
  "            \x7d\n" ++
  "        \x7d else \x7b\n" ++
  "            res.status(204).clearCookie(\x27__session\x27).end();\n" ++
  "        \x7d\n" ++
  "        return;\n" ++
  "    \x7d"

/-- The session-cookie parsing preceding the endpoint branch. -/
def sessionPre : String :=
  "\n// TODO figure out why middleware isn\x27t doing this for us\n" ++
  "    const cookies = cookie.parse(req.headers.cookie || \x27\x27);\n" ++
  "    let _decodeIdToken;\n" ++
  "    const decodeIdToken = () => _decodeIdToken ||= cookies.__session ? adminAuth.verifySessionCookie(cookies.__session, true).catch(() => null) : Promise.resolve(null);\n"

/-- The per-request authenticated-app lookup following the endpoint branch. -/
def sessionPost : String :=
  "\n    // TODO only go down this path for routes that need it\n" ++
  "    const decodedIdToken = await decodeIdToken();\n" ++
  "    if (firebaseConfig && decodedIdToken) \x7b\n" ++
  "        const \x7b uid \x7d = decodedIdToken;\n" ++
  "        let app = firebaseAppsLRU.get(uid);\n" ++
  "        if (!app) \x7b\n" ++
  "            const random = Math.random().toString(36).split(\x27.\x27)[1];\n" ++
  "            const appName = \x60authenticated-context:$\x7buid\x7d:$\x7brandom\x7d\x60;\n" ++
  "            app = initializeApp(firebaseConfig, appName);\n" ++
  "            firebaseAppsLRU.set(uid, app);\n" ++
  "        \x7d\n" ++
  "        const auth = getAuth(app);\n" ++
  "        if (auth.currentUser?.uid !== uid) \x7b\n" ++
  "            // TODO get custom claims\n" ++
  "            //      check in with the Auth team to make sure this is the best way of doing this\n" ++
  "            const customToken = await adminAuth.createCustomToken(decodedIdToken.uid);\n" ++
  "            await signInWithCustomToken(auth, customToken);\n" ++
  "        \x7d\n" ++
  "        // TODO can we use a symbol for these or otherwise set them as non iterable\n" ++
  "        //      can we drop this and just use useRouter().query.__FIREBASE_APP_NAME?\n" ++
  "        // Pass the authenticated firebase app name to getInitialProps, getServerSideProps via req\n" ++
  "        // I\x27d normally reach for a global here, but we need to think about concurrency now with CF3v2\n" ++
  "        req[\x27firebaseApp\x27] = app;\n" ++
  "        req[\x27currentUser\x27] = auth.currentUser;\n" ++
  "    \x7d\n"

/-- The whole second optional block (`${options ? ... : ''}` inside the
request handler). -/
def sessionBlock : String :=
  sessionPre ++ cookieEndpointText ++ sessionPost

/-- The fixed handler tail. -/
def serverTail : String :=
  "\n    const parsedUrl = parse(req.url, true);\n    await nextAppPrepare;\n    nextApp.getRequestHandler()(req, res, parsedUrl);\n\x7d);\n"

/-- `newServerJs`: the full template literal, with the two optional blocks
present exactly when `options` is non-null. -/
def newServerJs (f : FunctionConfig) (options : Option FirebaseOptions) : String :=
  conditionalImports f.gen ++ coreImports ++
  (match options with
    | some o => authImportsBlock o
    | none => "") ++
  nextAppSetup ++ jsonString f.name ++ "] = " ++ onRequestSnippet f.gen f.region ++
  "async (req, res) => \x7b" ++
  (match options with
    | some _ => sessionBlock
    | none => "") ++
  serverTail

/-! ## Substring reasoning for the emitted text -/

/-- `pat` occurs contiguously inside `s`. -/
def IsSubstr (pat s : String) : Prop := ∃ a b : String, s = a ++ (pat ++ b)

theorem IsSubstr.length_le {pat s : String} (h : IsSubstr pat s) :
    pat.length ≤ s.length := by
  obtain ⟨a, b, rfl⟩ := h
  rw [String.length_append, String.length_append]
  omega

/-- The generated text "contains the session-bridging block" when both the
`/__next/cookie` endpoint branch and the LRU-cached client SDK setup occur
in it. -/
def containsSessionBridge (s : String) : Prop :=
  IsSubstr cookieEndpointText s ∧ IsSubstr lruSetupText s

theorem escapeChar_length_le (c : Char) : (escapeChar c).length ≤ 6 := by
  unfold escapeChar
  split_ifs <;> simp

theorem jsonEscape_length_le (s : String) : (jsonEscape s).length ≤ 6 * s.length := by
  show (s.data.flatMap escapeChar).length ≤ 6 * s.data.length
  induction s.data with
  | nil => simp
  | cons c cs ih =>
    rw [List.flatMap_cons, List.length_append, List.length_cons]
    have := escapeChar_length_le c
    omega

theorem jsonString_length_le (s : String) : (jsonString s).length ≤ 6 * s.length + 2 := by
  unfold jsonString
  rw [String.length_append, String.length_append]
  have := jsonEscape_length_le s
  have h1 : ("\"" : String).length = 1 := rfl
  omega

set_option maxRecDepth 100000 in
/-- C5: the text emitted by `newServerJs` contains the session-bridging block
(the `/__next/cookie` endpoint branch together with the per-user LRU-cached
client SDK setup) if and only if the client options argument is present.
The bounds on the name and region lengths reflect the data-model invariant
that `name` is a usable identifier and `region` a region label; without some
such bound a pathological multi-kilobyte `name` could itself spell out the
block's text inside the export key. -/
theorem newServerJs_session_bridge_iff (f : FunctionConfig)
    (options : Option FirebaseOptions)
    (hname : f.name.length ≤ 50) (hregion : f.region.length ≤ 50) :
    containsSessionBridge (newServerJs f options) ↔ options.isSome = true := by
  cases options with
  | some o =>
    refine iff_of_true ⟨?_, ?_⟩ rfl
    · refine ⟨conditionalImports f.gen ++ coreImports ++ authImportsBlock o ++
        nextAppSetup ++ jsonString f.name ++ "] = " ++
        onRequestSnippet f.gen f.region ++ "async (req, res) => \x7b" ++ sessionPre,
        sessionPost ++ serverTail, ?_⟩
      simp only [newServerJs, sessionBlock, String.append_assoc]
    · refine ⟨conditionalImports f.gen ++ coreImports ++ authImportsPre o,
        "\n" ++ (nextAppSetup ++ jsonString f.name ++ "] = " ++
          onRequestSnippet f.gen f.region ++ "async (req, res) => \x7b" ++
          sessionBlock ++ serverTail), ?_⟩
      simp only [newServerJs, authImportsBlock, String.append_assoc]
  | none =>
    refine iff_of_false ?_ (by simp)
    rintro ⟨hc, -⟩
    have hle := hc.length_le
    have expand : newServerJs f none =
        conditionalImports f.gen ++ coreImports ++ "" ++ nextAppSetup ++
        jsonString f.name ++ "] = " ++ onRequestSnippet f.gen f.region ++
        "async (req, res) => \x7b" ++ "" ++ serverTail := rfl
    rw [expand] at hle
    simp only [String.length_append] at hle
    have e0 : cookieEndpointText.length = 1189 := rfl
    have e1 : coreImports.length = 98 := rfl
    have e2 : nextAppSetup.length = 107 := rfl
    have e3 : serverTail.length = 129 := rfl
    have e4 : ("] = " : String).length = 4 := rfl
    have e5 : ("async (req, res) => \x7b" : String).length = 21 := rfl
    have e6 : ("" : String).length = 0 := rfl
    have e7 : (conditionalImports f.gen).length ≤ 61 := by
      unfold conditionalImports
      split <;> decide
    have e8 : (onRequestSnippet f.gen f.region).length ≤ 26 + f.region.length := by
      unfold onRequestSnippet
      split
      · have : ("functions.https.onRequest(" : String).length = 26 := rfl
        omega
      · rw [String.length_append, String.length_append]
        have h1 : ("onRequest(\x7b region: \x27" : String).length = 21 := rfl
        have h2 : ("\x27 \x7d, " : String).length = 5 := rfl
        omega
    have e9 := jsonString_length_le f.name
    omega

/-- Witness for C5: for a concrete generation-2 config, the emitted text with
client options present contains the session-bridging block. -/
theorem newServerJs_session_bridge_iff_witness :
    containsSessionBridge
      (newServerJs ⟨2, "ssr", "us-central1"⟩ (some [("apiKey", "k")])) :=
  (newServerJs_session_bridge_iff ⟨2, "ssr", "us-central1"⟩ (some [("apiKey", "k")])
    (by decide) (by decide)).mpr rfl

/-- C9: `newServerJs` is deterministic — two calls with identical `(config,
options)` inputs produce identical (byte-identical) text. The embedding is a
pure function because the source template reads nothing but its arguments:
the `Math.random()` and cache logic visible in the text are emitted as
string content, never executed at generation time. -/
theorem newServerJs_deterministic (f₁ f₂ : FunctionConfig)
    (o₁ o₂ : Option FirebaseOptions) (hf : f₁ = f₂) (ho : o₁ = o₂) :
    newServerJs f₁ o₁ = newServerJs f₂ o₂ := by
  subst hf
  subst ho
  rfl

/-- Witness for C9. -/
theorem newServerJs_deterministic_witness :
    newServerJs ⟨1, "ssr", "us-central1"⟩ none =
      newServerJs ⟨1, "ssr", "us-central1"⟩ none :=
  newServerJs_deterministic ⟨1, "ssr", "us-central1"⟩ ⟨1, "ssr", "us-central1"⟩
    none none rfl rfl

end Templates
